import Mathlib

/-!
Shallow embedding of the CPU core of a JavaScript NES emulator
(src/core/CPU.js) and verification of claims about its specification.

The CPU is a mutable object holding registers, flags, counters, an
interrupt latch, and references to peers (RAM, PPU, APU, controller,
mapper).  We model it as a Lean structure `CPU`; methods become pure
functions `CPU → ... → CPU` (or returning `Nat × CPU` when the source
method both returns a value and may mutate state, since PPU/APU/controller
reads can mutate those peers).  Peers are modelled abstractly: each peer
carries an abstract state (a `Nat`) and read/write transition functions
stored in the structure, mirroring the object references the source CPU
holds.  JavaScript numbers are modelled as `Nat`; the source only ever
applies bitwise operators to values in ranges where 32-bit coercion is the
identity, and the few places where negative intermediate values arise
(`(sp - 1) & 0xFF`) are translated to their explicit mod-256 equivalents.
-/

namespace NES

/-- Interrupt tags.  Modelled from the spec: the INTERRUPTS constants live
in src/core/constants.js, which is not under src/; the spec states the
pending interrupt is an optional tag in the set NMI, IRQ, with only NMI
wired in this core and IRQ reserved. -/
inductive Interrupt where
  | NMI
  | IRQ
deriving DecidableEq

/-- The CPU state, one field per instance field of the source `CPU` class
(peers and the memory object included).  `ram` is the 2 KiB backing store
of CPUMemory, `stack` its 256-entry stack array.  Peer objects (PPU, APU,
controller, mapper) are abstracted as a state value (`ppuSt`, ...) plus
read/write transition functions, since the CPU only ever calls their
`read8`/`write8` methods. -/
structure CPU where
  cycles : Nat
  b : Nat
  pc : Nat
  sp : Nat
  a : Nat
  x : Nat
  y : Nat
  c : Nat
  z : Nat
  i : Nat
  d : Nat
  v : Nat
  n : Nat
  interrupt : Option Interrupt
  stallCounter : Nat
  ram : Nat → Nat
  stack : Nat → Nat
  ppuSt : Nat
  apuSt : Nat
  ctrlSt : Nat
  mapperSt : Nat
  ppuRead8 : Nat → Nat → Nat × Nat
  ppuWrite8 : Nat → Nat → Nat → Nat
  apuRead8 : Nat → Nat × Nat
  apuWrite8 : Nat → Nat → Nat → Nat
  ctrlRead8 : Nat → Nat × Nat
  ctrlWrite8 : Nat → Nat → Nat
  mapperRead8 : Nat → Nat → Nat
  mapperWrite8 : Nat → Nat → Nat → Nat

/-- Modelled from the spec: `CPUMemory.read8` (src/core/CPUMemory.js is not
under src/).  The spec: 2 KiB work RAM, addresses taken modulo 2048 to
implement four-way mirroring. -/
def memRead8 (ram : Nat → Nat) (addr : Nat) : Nat := ram (addr % 0x800)

/-- Modelled from the spec: `CPUMemory.write8`, the write direction of the
2 KiB mirrored RAM. -/
def memWrite8 (ram : Nat → Nat) (addr val : Nat) : Nat → Nat :=
  fun adr => if adr = addr % 0x800 then val else ram adr

/-- `CPU.read8`: bus read dispatch.  Returns the byte and the possibly
updated CPU (PPU/APU/controller reads can mutate the peer). -/
def read8 (s : CPU) (addr : Nat) : Nat × CPU :=
  if addr < 0x2000 then
    (memRead8 s.ram addr, s)
  else if addr < 0x4000 then
    -- 7 bytes PPU registers mirrored from 0x2000 to 0x4000
    let r := s.ppuRead8 s.ppuSt (0x2000 + addr % 8)
    (r.1, { s with ppuSt := r.2 })
  else if addr = 0x4014 then
    let r := s.ppuRead8 s.ppuSt addr
    (r.1, { s with ppuSt := r.2 })
  else if addr = 0x4015 then
    let r := s.apuRead8 s.apuSt
    (r.1, { s with apuSt := r.2 })
  else if addr = 0x4016 then
    let r := s.ctrlRead8 s.ctrlSt
    (r.1, { s with ctrlSt := r.2 })
  else if addr = 0x4017 then
    (0, s)
  else if addr < 0x6000 then
    (0, s)
  else
    (s.mapperRead8 s.mapperSt addr, s)

/-- `CPU.read16`: read two bytes and concatenate them; the source evaluates
`read8(addr + 1)` first (left operand of `|`). -/
def read16 (s : CPU) (addr : Nat) : Nat × CPU :=
  let hi := read8 s (addr + 1)
  let lo := read8 hi.2 addr
  ((hi.1 <<< 8) ||| lo.1, lo.2)

/-- `CPU.read16indirect`: special read16 for indirect-mode reading,
reproducing the 6502 page-wrap bug via `addr2`. -/
def read16indirect (s : CPU) (addr : Nat) : Nat × CPU :=
  let addr2 := (addr &&& 0xFF00) ||| (((addr &&& 0xFF) + 1) &&& 0xFF)
  let lo := read8 s addr
  let hi := read8 lo.2 addr2
  ((hi.1 <<< 8) ||| lo.1, hi.2)

/-- `CPU.write8`: bus write dispatch, mirroring the source's if/else chain
(the final `addr < 0x6000` arm is a silent drop). -/
def write8 (s : CPU) (addr val : Nat) : CPU :=
  if addr < 0x2000 then
    { s with ram := memWrite8 s.ram addr val }
  else if addr < 0x4000 then
    { s with ppuSt := s.ppuWrite8 s.ppuSt (0x2000 + addr % 8) val }
  else if addr = 0x4014 then
    { s with ppuSt := s.ppuWrite8 s.ppuSt 0x4014 val }
  else if addr = 0x4015 then
    { s with apuSt := s.apuWrite8 s.apuSt addr val }
  else if addr = 0x4016 then
    { s with ctrlSt := s.ctrlWrite8 s.ctrlSt val }
  else if addr = 0x4017 then
    s
  else if 0x6000 ≤ addr then
    { s with mapperSt := s.mapperWrite8 s.mapperSt addr val }
  else
    s

/-- `CPU.stall`: DMA stall, adds 514 to the stall counter when `cycles` is
odd, 513 when even. -/
def stall (s : CPU) : CPU :=
  if s.cycles % 2 = 1 then
    { s with stallCounter := s.stallCounter + 514 }
  else
    { s with stallCounter := s.stallCounter + 513 }

/-- `CPU.stackPush8`: store at index `sp` of the stack array, then
decrement `sp` with 8-bit wrap (`(sp - 1) & 0xFF` in JS, which is
`(sp + 255) % 256` on naturals). -/
def stackPush8 (s : CPU) (val : Nat) : CPU :=
  { s with
    stack := fun idx => if idx = s.sp then val else s.stack idx,
    sp := (s.sp + 255) % 256 }

/-- `CPU.stackPush16`: push the high byte, then the low byte. -/
def stackPush16 (s : CPU) (val : Nat) : CPU :=
  stackPush8 (stackPush8 s (val >>> 8)) (val &&& 0xFF)

/-- `CPU.stackPull8`: increment `sp` with 8-bit wrap, then read the stack
array at the new `sp`. -/
def stackPull8 (s : CPU) : Nat × CPU :=
  let sp2 := (s.sp + 1) % 256
  (s.stack sp2, { s with sp := sp2 })

/-- `CPU.stackPull16`: the source computes
`stackPull8() | (stackPull8() << 8)`; the left call (the low byte) runs
first. -/
def stackPull16 (s : CPU) : Nat × CPU :=
  let lo := stackPull8 s
  let hi := stackPull8 lo.2
  ((hi.1 <<< 8) ||| lo.1, hi.2)

/-- The flag-packing computation of `CPU.getFlags`, factored over plain
naturals so that properties can be settled by case analysis on the six
bits: bit 4 is written as 0 and bit 5 as 1. -/
def packFlags (fc fz fi fd fv fn : Nat) : Nat :=
  ((((((((0 ||| (fc <<< 0)) ||| (fz <<< 1)) ||| (fi <<< 2)) ||| (fd <<< 3))
      ||| (0 <<< 4)) ||| (1 <<< 5)) ||| (fv <<< 6)) ||| (fn <<< 7))

/-- `CPU.getFlags`: pack the stored flag bits into an int. -/
def getFlags (s : CPU) : Nat :=
  packFlags s.c s.z s.i s.d s.v s.n

/-- `CPU.setFlags`: unpack bits 0,1,2,3,6,7 of `val` into the six stored
flags. -/
def setFlags (s : CPU) (val : Nat) : CPU :=
  { s with
    c := (val >>> 0) &&& 1
    z := (val >>> 1) &&& 1
    i := (val >>> 2) &&& 1
    d := (val >>> 3) &&& 1
    v := (val >>> 6) &&& 1
    n := (val >>> 7) &&& 1 }

/-- `CPU.reset`: zero the counters and registers, clear the latch and the
stall counter, load `pc` from the reset vector $FFFC, set `sp = 0xFD` and
the flags to 0x24. -/
def reset (s : CPU) : CPU :=
  let s1 : CPU :=
    { s with cycles := 0, a := 0, x := 0, y := 0,
             interrupt := none, stallCounter := 0 }
  let r := read16 s1 0xFFFC
  setFlags { r.2 with pc := r.1, sp := 0xFD } 0x24

/-- `CPU.tick`: one scheduler step.  `b` is cleared first; a positive stall
counter is decremented and the source returns 0 (its comment says it
should return 1); a latched NMI is serviced (push `pc`, push flags with
bit 4 cleared, load `pc` from $FFFA, set I, add 7 cycles) and any other
latched tag falls into the `default` arm which does nothing; either way
the latch is cleared and 7 is returned.  The instruction fetch/dispatch
path depends on the opcode/mode tables of instructions.js, modes.js and
opcodes.js, which are not under src/; that path is represented by `none`
and no claim depends on it. -/
def tick (s0 : CPU) : Option (Nat × CPU) :=
  let s : CPU := { s0 with b := 0 }
  if s.stallCounter > 0 then
    some (0, { s with stallCounter := s.stallCounter - 1 })
  else
    match s.interrupt with
    | some Interrupt.NMI =>
        let s1 := stackPush16 s s.pc
        -- `getFlags() & ~0x10`: bit 4 cleared (the packed byte is < 256
        -- for flag bits in range, so the 32-bit mask reduces to 0xEF)
        let s2 := stackPush8 s1 (getFlags s1 &&& 0xEF)
        let r := read16 s2 0xFFFA
        let s3 : CPU :=
          { r.2 with pc := r.1, i := 1, cycles := r.2.cycles + 7, interrupt := none }
        some (7, s3)
    | some Interrupt.IRQ =>
        some (7, { s with interrupt := none })
    | none => none

/-- A concrete CPU state used to instantiate theorems: all peers read as 0
and ignore writes, registers hold distinct recognisable values. -/
def cpu0 : CPU where
  cycles := 100
  b := 0
  pc := 0x8000
  sp := 0xFD
  a := 1
  x := 2
  y := 3
  c := 0
  z := 0
  i := 1
  d := 0
  v := 0
  n := 0
  interrupt := none
  stallCounter := 5
  ram := fun _ => 0
  stack := fun _ => 0
  ppuSt := 0
  apuSt := 0
  ctrlSt := 0
  mapperSt := 0
  ppuRead8 := fun st _ => (0, st)
  ppuWrite8 := fun st _ _ => st
  apuRead8 := fun st => (0, st)
  apuWrite8 := fun st _ _ => st
  ctrlRead8 := fun st => (0, st)
  ctrlWrite8 := fun st _ => st
  mapperRead8 := fun _ _ => 0
  mapperWrite8 := fun st _ _ => st

/-- Rewriting an 8-bit mask as a remainder. -/
theorem and255_eq_mod (m : Nat) : m &&& 0xFF = m % 256 :=
  Nat.and_pow_two_sub_one_eq_mod m 8

/-- When every flag bit is 0 or 1, the mask `& ~0x10` applied to the
packed flag byte before the NMI push is the identity. -/
theorem packFlags_and_mask : ∀ fc < 2, ∀ fz < 2, ∀ fi < 2, ∀ fd < 2, ∀ fv < 2, ∀ fn < 2,
    packFlags fc fz fi fd fv fn &&& 0xEF = packFlags fc fz fi fd fv fn := by decide

/-- When every flag bit is 0 or 1, bit 4 (B) of the packed flag byte reads
as 0. -/
theorem packFlags_testBit4 : ∀ fc < 2, ∀ fz < 2, ∀ fi < 2, ∀ fd < 2, ∀ fv < 2, ∀ fn < 2,
    Nat.testBit (packFlags fc fz fi fd fv fn) 4 = false := by decide

/-- When every flag bit is 0 or 1, bit 5 (U) of the packed flag byte reads
as 1. -/
theorem packFlags_testBit5 : ∀ fc < 2, ∀ fz < 2, ∀ fi < 2, ∀ fd < 2, ∀ fv < 2, ∀ fn < 2,
    Nat.testBit (packFlags fc fz fi fd fv fn) 5 = true := by decide

/-- Claim C4: one call to the DMA-stall operation `stall` adds exactly 513
to the stall counter when the current `cycles` value is even and exactly
514 when it is odd, and changes no other CPU state. -/
theorem C4_stall_adds_513_or_514 (s : CPU) :
    (s.cycles % 2 = 0 → stall s = { s with stallCounter := s.stallCounter + 513 }) ∧
    (s.cycles % 2 = 1 → stall s = { s with stallCounter := s.stallCounter + 514 }) := by
  constructor <;> intro h <;> simp [stall, h]

/-- Witness for C4 at a concrete state with an even cycle count. -/
theorem C4_stall_adds_513_or_514_witness :
    stall cpu0 = { cpu0 with stallCounter := cpu0.stallCounter + 513 } :=
  (C4_stall_adds_513_or_514 cpu0).1 rfl

set_option maxRecDepth 8000 in
/-- Claim C5: after `reset()`, `sp = 0xFD`, the I flag is 1, the packed
flag byte is 0x24, `pc` holds the value of `read16 0xFFFC`, the interrupt
latch is cleared and the stall counter is 0. -/
theorem C5_reset_state (s : CPU) :
    (reset s).sp = 0xFD ∧ (reset s).i = 1 ∧ getFlags (reset s) = 0x24 ∧
    (reset s).pc = (read16 s 0xFFFC).1 ∧ (reset s).interrupt = none ∧
    (reset s).stallCounter = 0 := by
  refine ⟨rfl, rfl, ?_, rfl, rfl, rfl⟩
  show packFlags ((0x24 >>> 0) &&& 1) ((0x24 >>> 1) &&& 1) ((0x24 >>> 2) &&& 1)
      ((0x24 >>> 3) &&& 1) ((0x24 >>> 6) &&& 1) ((0x24 >>> 7) &&& 1) = 0x24
  decide

set_option maxRecDepth 8000 in
/-- Claim C6: for every byte `val`, `setFlags val` followed by `getFlags`
yields `(val &&& 0xCF) ||| 0x20`, from every starting CPU state. -/
theorem C6_flag_roundtrip (s : CPU) (val : Nat) (hval : val < 256) :
    getFlags (setFlags s val) = (val &&& 0xCF) ||| 0x20 := by
  have key : ∀ w < 256,
      packFlags ((w >>> 0) &&& 1) ((w >>> 1) &&& 1) ((w >>> 2) &&& 1)
        ((w >>> 3) &&& 1) ((w >>> 6) &&& 1) ((w >>> 7) &&& 1) =
        (w &&& 0xCF) ||| 0x20 := by decide
  exact key val hval

/-- Witness for C6 at `val = 0xFF`. -/
theorem C6_flag_roundtrip_witness :
    getFlags (setFlags cpu0 0xFF) = (0xFF &&& 0xCF) ||| 0x20 :=
  C6_flag_roundtrip cpu0 0xFF (by decide)

/-- Claim C3: `read16indirect` fetches its low byte from `addr` and its
high byte from `(addr &&& 0xFF00) ||| ((addr + 1) &&& 0xFF)`; when the
low byte of the pointer is 0xFF the high-byte address wraps to the start
of the same page (the 6502 indirect-JMP page-wrap bug). -/
theorem C3_read16indirect_bug (s : CPU) (addr : Nat) (h : addr < 0x10000) :
    read16indirect s addr =
      (let lo := read8 s addr
       let hi := read8 lo.2 ((addr &&& 0xFF00) ||| ((addr + 1) &&& 0xFF))
       ((hi.1 <<< 8) ||| lo.1, hi.2)) ∧
    (addr &&& 0xFF = 0xFF →
      (addr &&& 0xFF00) ||| ((addr + 1) &&& 0xFF) = addr &&& 0xFF00) := by
  constructor
  · unfold read16indirect
    rw [show ((addr &&& 0xFF) + 1) &&& 0xFF = (addr + 1) &&& 0xFF by
      simp only [and255_eq_mod]; omega]
  · intro hff
    rw [and255_eq_mod] at hff
    rw [and255_eq_mod, show (addr + 1) % 256 = 0 by omega, Nat.or_zero]

/-- Witness for C3 at `addr = 0x02FF` (pointer low byte 0xFF). -/
theorem C3_read16indirect_bug_witness :
    read16indirect cpu0 0x02FF =
      (let lo := read8 cpu0 0x02FF
       let hi := read8 lo.2 ((0x02FF &&& 0xFF00) ||| ((0x02FF + 1) &&& 0xFF))
       ((hi.1 <<< 8) ||| lo.1, hi.2)) ∧
    (0x02FF &&& 0xFF = 0xFF →
      (0x02FF &&& 0xFF00) ||| ((0x02FF + 1) &&& 0xFF) = 0x02FF &&& 0xFF00) :=
  C3_read16indirect_bug cpu0 0x02FF (by decide)

/-- Claim C9: for every address in the reserved I/O windows (0x4017,
0x4000–0x4013 and 0x4018–0x5FFF), a bus read returns 0 and leaves the
whole CPU state (RAM and peers included) unchanged, and a bus write is
silently dropped. -/
theorem C9_reserved_io (s : CPU) (addr val : Nat)
    (h : addr = 0x4017 ∨ (0x4000 ≤ addr ∧ addr ≤ 0x4013) ∨
         (0x4018 ≤ addr ∧ addr ≤ 0x5FFF)) :
    read8 s addr = (0, s) ∧ write8 s addr val = s := by
  rcases h with h | ⟨h1, h2⟩ | ⟨h1, h2⟩ <;>
    exact ⟨by unfold read8; split_ifs <;> first | rfl | omega,
           by unfold write8; split_ifs <;> first | rfl | omega⟩

/-- Witness for C9 at `addr = 0x4017`. -/
theorem C9_reserved_io_witness :
    read8 cpu0 0x4017 = (0, cpu0) ∧ write8 cpu0 0x4017 0x42 = cpu0 :=
  C9_reserved_io cpu0 0x4017 0x42 (Or.inl rfl)

/-- Stack pointer after folding `stackPush8` over a non-empty list of
values: each push subtracts one modulo 256. -/
theorem foldl_stackPush8_sp (l : List Nat) (s : CPU) (hne : l ≠ []) :
    (l.foldl stackPush8 s).sp = (s.sp + 255 * l.length) % 256 := by
  induction l generalizing s with
  | nil => exact absurd rfl hne
  | cons hd tl ih =>
    by_cases htl : tl = []
    · subst htl
      simp [stackPush8]
    · rw [List.foldl_cons, ih (stackPush8 s hd) htl]
      simp only [stackPush8, List.length_cons]
      rw [Nat.mod_add_mod]
      congr 1
      ring

set_option maxRecDepth 8000 in
/-- Claim C7 counterexample: from `sp = 0xFD`, 257 consecutive pushes end
at `sp = 0xFC`, not at the original value. -/
theorem C7_counterexample :
    ¬ ((List.replicate 257 0).foldl stackPush8 cpu0).sp = cpu0.sp := by
  decide

/-- Claim C7 amended: 256 (not 257) consecutive `stackPush8` operations
return an in-range `sp` to its original value. -/
theorem C7_amended (s : CPU) (l : List Nat) (hs : s.sp < 256)
    (hl : l.length = 256) :
    (l.foldl stackPush8 s).sp = s.sp := by
  have hne : l ≠ [] := by
    intro hnil
    rw [hnil] at hl
    simp at hl
  rw [foldl_stackPush8_sp l s hne, hl]
  omega

set_option maxRecDepth 8000 in
/-- Witness for the amended C7: 256 pushes from `sp = 0xFD`. -/
theorem C7_amended_witness :
    ((List.replicate 256 0).foldl stackPush8 cpu0).sp = cpu0.sp :=
  C7_amended cpu0 (List.replicate 256 0) (by decide) (by simp)

/-- Claim C1 (the source diverges here): with a positive stall counter the
source `tick` decrements the counter and leaves `pc`, `sp`, `a`, `x`, `y`,
every flag and `cycles` unchanged, but returns 0 — not the 1 the
specification requires (the source itself comments that it should
return 1).  Evaluated at the concrete stalled state `cpu0`
(`stallCounter = 5`). -/
theorem C1_stalled_tick_returns_zero :
    tick cpu0 = some (0, { cpu0 with b := 0, stallCounter := 4 }) := rfl

/-- Claim C10: with stall counter 0 and a latched non-NMI interrupt, the
`default` arm of the interrupt switch does nothing; `tick` clears the
latch, returns 7, and leaves `pc`, `sp`, `a`, `x`, `y`, all flags and
`cycles` unchanged — so the returned cycle count (7) differs from the
actual change in `cycles` (0). -/
theorem C10_non_nmi_interrupt_dropped (s : CPU) (intr : Interrupt)
    (h0 : s.stallCounter = 0) (hne : intr ≠ Interrupt.NMI)
    (hI : s.interrupt = some intr) :
    tick s = some (7, { s with b := 0, interrupt := none }) ∧
    ({ s with b := 0, interrupt := none } : CPU).cycles = s.cycles ∧
    (7 : Nat) ≠ ({ s with b := 0, interrupt := none } : CPU).cycles - s.cycles := by
  cases intr with
  | NMI => exact absurd rfl hne
  | IRQ =>
    refine ⟨?_, rfl, ?_⟩
    · simp [tick, h0, hI]
    · show (7 : Nat) ≠ s.cycles - s.cycles
      omega

/-- Splitting a natural into its high part shifted back and its low byte
recovers it. -/
theorem shift_or_roundtrip (m : Nat) : ((m >>> 8) <<< 8) ||| (m &&& 0xFF) = m := by
  have h2 : (2 : Nat) ^ 8 = 256 := by norm_num
  rw [Nat.shiftRight_eq_div_pow, Nat.shiftLeft_eq, and255_eq_mod,
      Nat.mul_comm (m / 2 ^ 8) (2 ^ 8),
      ← Nat.mul_add_lt_is_or (show m % 256 < 2 ^ 8 by rw [h2]; omega) (m / 2 ^ 8)]
  rw [h2]
  omega

/-- A concrete state with `sp = 0`, where the 16-bit push wraps around the
bottom of the stack page. -/
def cpuSp0 : CPU := { cpu0 with sp := 0 }

/-- Claim C8 counterexample: at `sp = 0` the two pushed bytes land at
stack indices 0 (high byte) and 255 (low byte); the round-trip clauses
hold but the low byte sits at the higher address, so the layout clause of
the claim fails. -/
theorem C8_counterexample :
    ¬ ((stackPull16 (stackPush16 cpuSp0 0x1234)).1 = 0x1234 ∧
       (stackPull16 (stackPush16 cpuSp0 0x1234)).2.sp = cpuSp0.sp ∧
       (stackPush16 cpuSp0 0x1234).stack ((cpuSp0.sp + 255) % 256) = 0x34 ∧
       (stackPush16 cpuSp0 0x1234).stack cpuSp0.sp = 0x12 ∧
       (cpuSp0.sp + 255) % 256 < cpuSp0.sp) := by decide

/-- Claim C8 amended: for every 16-bit `val` and in-range `sp`,
`stackPush16 val` followed by `stackPull16` returns `val` and restores
`sp`; the low byte is stored at stack index `(sp + 255) % 256` and the
high byte at index `sp`, and whenever `sp ≠ 0` (so the pair does not wrap
around the bottom of the stack page) the low byte's index is the lower
address. -/
theorem C8_push16_pull16_roundtrip (s : CPU) (val : Nat)
    (hval : val < 0x10000) (hs : s.sp < 256) :
    (stackPull16 (stackPush16 s val)).1 = val ∧
    (stackPull16 (stackPush16 s val)).2.sp = s.sp ∧
    (stackPush16 s val).stack ((s.sp + 255) % 256) = val % 256 ∧
    (stackPush16 s val).stack s.sp = val / 256 ∧
    (s.sp ≠ 0 → (s.sp + 255) % 256 < s.sp) := by
  have h2 : (2 : Nat) ^ 8 = 256 := by norm_num
  have e0 : ((s.sp + 255) % 256 + 255) % 256 + 1 = (s.sp + 255) % 256 + 256 ∨
      ((s.sp + 255) % 256 + 255) % 256 + 1 = (s.sp + 255) % 256 := by omega
  have e1 : (((s.sp + 255) % 256 + 255) % 256 + 1) % 256 = (s.sp + 255) % 256 := by
    omega
  have e2 : ((s.sp + 255) % 256 + 1) % 256 = s.sp := by omega
  have ne1 : ¬ s.sp = (s.sp + 255) % 256 := by omega
  refine ⟨?_, ?_, ?_, ?_, fun hsp => by omega⟩
  · simp only [stackPush16, stackPush8, stackPull16, stackPull8]
    simp only [e1, e2]
    simp [ne1]
    exact shift_or_roundtrip val
  · simp only [stackPush16, stackPush8, stackPull16, stackPull8]
    simp only [e1, e2]
  · simp only [stackPush16, stackPush8]
    simp [show ¬ (s.sp + 255) % 256 = ((s.sp + 255) % 256 + 255) % 256 by omega,
          and255_eq_mod]
  · simp only [stackPush16, stackPush8]
    simp [show ¬ s.sp = ((s.sp + 255) % 256 + 255) % 256 by omega, ne1,
          Nat.shiftRight_eq_div_pow, h2]

/-- Witness for the amended C8 at `val = 0x1234` from `sp = 0xFD`. -/
theorem C8_push16_pull16_roundtrip_witness :
    (stackPull16 (stackPush16 cpu0 0x1234)).1 = 0x1234 ∧
    (stackPull16 (stackPush16 cpu0 0x1234)).2.sp = cpu0.sp ∧
    (stackPush16 cpu0 0x1234).stack ((cpu0.sp + 255) % 256) = 0x1234 % 256 ∧
    (stackPush16 cpu0 0x1234).stack cpu0.sp = 0x1234 / 256 ∧
    (cpu0.sp ≠ 0 → (cpu0.sp + 255) % 256 < cpu0.sp) :=
  C8_push16_pull16_roundtrip cpu0 0x1234 (by decide) (by decide)

/-- A concrete state with a latched NMI, for the C2 witness. -/
def cpuNMI : CPU := { cpu0 with stallCounter := 0, interrupt := some Interrupt.NMI }

/-- Claim C2: with stall counter 0 and a latched NMI, `tick` pushes `pc`
(high byte at stack index `sp`, low byte one below), pushes the packed
flag byte (whose bit 4 is 0 and bit 5 is 1) below that, sets the I flag,
loads `pc` from the NMI vector at $FFFA, adds exactly 7 to `cycles`,
clears the latch and returns 7. -/
theorem C2_tick_nmi (s : CPU)
    (h0 : s.stallCounter = 0) (hI : s.interrupt = some Interrupt.NMI)
    (hc : s.c < 2) (hz : s.z < 2) (hif : s.i < 2) (hd : s.d < 2)
    (hv : s.v < 2) (hn : s.n < 2) :
    ∃ r : CPU, tick s = some (7, r) ∧
      r.stack s.sp = s.pc / 256 ∧
      r.stack ((s.sp + 255) % 256) = s.pc % 256 ∧
      r.stack ((s.sp + 254) % 256) = getFlags s ∧
      Nat.testBit (getFlags s) 4 = false ∧
      Nat.testBit (getFlags s) 5 = true ∧
      r.i = 1 ∧ r.pc = (read16 s 0xFFFA).1 ∧
      r.cycles = s.cycles + 7 ∧ r.interrupt = none := by
  have h2 : (2 : Nat) ^ 8 = 256 := by norm_num
  have hmask := packFlags_and_mask s.c hc s.z hz s.i hif s.d hd s.v hv s.n hn
  have hb4 := packFlags_testBit4 s.c hc s.z hz s.i hif s.d hd s.v hv s.n hn
  have hb5 := packFlags_testBit5 s.c hc s.z hz s.i hif s.d hd s.v hv s.n hn
  obtain ⟨cy, bb, pc, sp, ra, rx, ry, fc, fz, fi, fd, fv, fn, intr, stc, ram, stk,
    pSt, aSt, cSt, mSt, pR, pW, aR, aW, cR, cW, mR, mW⟩ := s
  simp only at h0 hI hmask hb4 hb5 ⊢
  subst h0
  subst hI
  refine ⟨_, rfl, ?_, ?_, ?_, hb4, hb5, rfl, rfl, rfl, rfl⟩
  · simp [read16, read8, stackPush16, stackPush8,
          show ¬ sp = (sp + 255 + 255) % 256 by omega,
          show ¬ sp = (sp + 255) % 256 by omega,
          Nat.shiftRight_eq_div_pow, h2]
  · simp [read16, read8, stackPush16, stackPush8,
          show ¬ (sp + 255) % 256 = (sp + 255 + 255) % 256 by omega,
          and255_eq_mod]
  · simpa [read16, read8, stackPush16, stackPush8, getFlags,
          show (sp + 254) % 256 = (sp + 255 + 255) % 256 by omega] using hmask

/-- Witness for C2 at the concrete state `cpuNMI`. -/
theorem C2_tick_nmi_witness :
    ∃ r : CPU, tick cpuNMI = some (7, r) ∧
      r.stack cpuNMI.sp = cpuNMI.pc / 256 ∧
      r.stack ((cpuNMI.sp + 255) % 256) = cpuNMI.pc % 256 ∧
      r.stack ((cpuNMI.sp + 254) % 256) = getFlags cpuNMI ∧
      Nat.testBit (getFlags cpuNMI) 4 = false ∧
      Nat.testBit (getFlags cpuNMI) 5 = true ∧
      r.i = 1 ∧ r.pc = (read16 cpuNMI 0xFFFA).1 ∧
      r.cycles = cpuNMI.cycles + 7 ∧ r.interrupt = none :=
  C2_tick_nmi cpuNMI rfl rfl (by decide) (by decide) (by decide) (by decide)
    (by decide) (by decide)

/-- A concrete state with a latched IRQ, for the C10 witness. -/
def cpuIRQ : CPU := { cpu0 with stallCounter := 0, interrupt := some Interrupt.IRQ }

/-- Witness for C10 at the concrete state `cpuIRQ`. -/
theorem C10_non_nmi_interrupt_dropped_witness :
    tick cpuIRQ = some (7, { cpuIRQ with b := 0, interrupt := none }) ∧
    ({ cpuIRQ with b := 0, interrupt := none } : CPU).cycles = cpuIRQ.cycles ∧
    (7 : Nat) ≠ ({ cpuIRQ with b := 0, interrupt := none } : CPU).cycles - cpuIRQ.cycles :=
  C10_non_nmi_interrupt_dropped cpuIRQ Interrupt.IRQ rfl (by decide) rfl

end NES
